import Mathlib

/-!
Verification of the playground session state machine
(`src/playground/src/routes/Playground.machine.ts`).

The machine's context, events, actions, guards and transition table are
embedded as executable Lean definitions.  External collaborators (the JSON
and YAML parsers, the template-context builder, the Handlebars engine, the
formatter, and the bundled preset constants) are parameters gathered in the
`Externals` structure, mirroring the external-interface contract of the design:
the machine code is embedded exactly, the collaborators are quantified over.

Machine integers are modelled as `Int` (JavaScript array indices may be -1).
JavaScript objects used as string-keyed records are modelled as association
lists in insertion order; property insertion updates in place when the key
exists and appends otherwise, matching JavaScript semantics for
non-integer-like keys.  A JavaScript `TypeError` (property access on
`undefined`) and exceptions thrown by collaborators are modelled with
`Except String`.
-/

/-- Boolean prefix test on character lists (structural, kernel-reducible). -/
def isPrefixB : List Char → List Char → Bool
  | [], _ => true
  | _ :: _, [] => false
  | a :: as, b :: bs => a == b && isPrefixB as bs

/-- JS `String.prototype.startsWith`. -/
def jsStartsWith (s p : String) : Bool := isPrefixB p.data s.data

/-- JS `String.prototype.endsWith`. -/
def jsEndsWith (s p : String) : Bool := isPrefixB p.data.reverse s.data.reverse

/-- Containment of `sub` in `l` at any position. -/
def containsAux (l sub : List Char) : Bool :=
  match l with
  | [] => sub.isEmpty
  | _ :: rest => isPrefixB sub l || containsAux rest sub

/-- JS `String.prototype.includes`. -/
def jsIncludes (s sub : String) : Bool := containsAux s.data sub.data

/-- Whitespace characters recognised by JS `String.prototype.trim`
(restricted to the ASCII ones that occur in practice). -/
def isJsSpace (c : Char) : Bool := c == ' ' || c == '\t' || c == '\n' || c == '\r'

/-- JS `String.prototype.trim`. -/
def jsTrim (s : String) : String :=
  String.mk (((s.data.dropWhile isJsSpace).reverse.dropWhile isJsSpace).reverse)

/-- JS array indexing `arr[i]`; `none` is JavaScript `undefined`
(negative or out-of-range index). -/
def jsGetElem (l : List α) (i : Int) : Option α :=
  if i < 0 then none else l.get? i.toNat

/-- JS `Array.prototype.findIndex`: index of the first match, `-1` if none. -/
def jsFindIndex (p : α → Bool) (l : List α) : Int :=
  match l.findIdx? p with
  | some i => (i : Int)
  | none => -1

/-- Lookup in a JS object used as a string-keyed record (`obj[key]`);
`none` is `undefined`. -/
def jsRecordGet (m : List (String × α)) (k : String) : Option α :=
  (m.find? (fun p => p.1 == k)).map (fun p => p.2)

/-- JS property assignment `obj[k] = v` on a string-keyed record: updates in
place when the key exists, appends otherwise. -/
def jsInsert (m : List (String × α)) (k : String) (v : α) : List (String × α) :=
  if m.any (fun p => p.1 == k) then m.map (fun p => if p.1 == k then (k, v) else p)
  else m ++ [(k, v)]

/-- JS `Object.fromEntries` (later duplicate keys overwrite in place). -/
def jsFromEntries (l : List (String × α)) : List (String × α) :=
  l.foldl (fun acc p => jsInsert acc p.1 p.2) []

/-- JS truthiness of an optional string (`undefined` and `""` are falsy). -/
def jsTruthyOptStr (o : Option String) : Bool :=
  match o with
  | none => false
  | some s => s != ""

/-- `removeAtIndex` from `pastable`: drop the element at the given position
(nonnegative out-of-range indices leave the list unchanged, as in the
original; the UI never produces a negative index). -/
def removeAtIndex (l : List α) (i : Int) : List α :=
  if i < 0 then l else l.take i.toNat ++ l.drop (i.toNat + 1)

/-- `updateAtIndex` from `pastable`: replace the element at the given
position, leaving the list unchanged when the index is out of range. -/
def updateAtIndex (l : List α) (i : Int) (v : α) : List α :=
  l.enum.map (fun p => if (p.1 : Int) = i then v else p.2)

/-- `limit` from `pastable`: clamp a number into `[lo, hi]`. -/
def limit (x lo hi : Int) : Int := min (max x lo) hi

/-- `pick` from `pastable`: restrict a record to the listed keys. -/
def pick (m : List (String × α)) (keys : List String) : List (String × α) :=
  m.filter (fun p => keys.contains p.1)

/-- `capitalize` from `pastable`: upper-case the first character. -/
def capitalize (s : String) : String :=
  match s.data with
  | [] => ""
  | c :: cs => String.mk (c.toUpper :: cs)

/-- `FileTabData` (source line 23). -/
structure FileTabData where
  name : String
  content : String
  index : Int
  preset : Option String := none
deriving DecidableEq, Repr, Inhabited

/-- The slice of `OptionsFormValues` the machine reads or writes
(`groupStrategy`, `apiClientName`); every other option key is opaque to the
machine and kept in `rest`. -/
structure OptionsFormValues where
  groupStrategy : String
  apiClientName : String
  rest : List (String × String) := []
deriving DecidableEq, Repr, Inhabited

/-- The slice of the library's `TemplateContext` read by `updateOutput`:
endpoint groups (a string-keyed record in insertion order, values opaque),
`schemas`, `types`, and the optional set of common schema names. -/
structure TemplateContext where
  endpointsGroups : List (String × String) := []
  schemas : List (String × String) := []
  types : List (String × String) := []
  commonSchemaNames : Option (List String) := none
deriving DecidableEq, Repr, Inhabited

/-- Opaque parsed prettier configuration. -/
abbrev PrettierOptions := String

/-- The shapes of object passed to a compiled Handlebars template by
`updateOutput`: the full context (line 387), a group-narrowed context
(lines 347-355), the grouped-index data (line 329) and the grouped-common
data (lines 336-342). -/
inductive TplArg where
  | full (tc : TemplateContext) (options : OptionsFormValues)
  | group (tc : TemplateContext) (groupData : String) (options : OptionsFormValues)
  | index (groupNames : List (String × String))
  | common (schemas : List (String × String)) (types : List (String × String))

/-- An entry of `presetTemplateList` (`Playground.consts`): fields `value`,
`template` and the optional partial options override, modelled as a function
since a JS spread of a partial object is a per-key override. -/
structure PresetTemplate where
  value : String
  template : String
  options : Option (OptionsFormValues → OptionsFormValues) := none

/-- External collaborators and bundled constants the machine closes over:
parsers, the semantic-model builder, the template engine, the formatter and
the preset constants.  `jsonParseDoc` models `safeJSONParse` (never throws;
`none` covers both a parse failure and a falsy parsed value, which the
machine treats identically at line 291).  `yamlParseDoc` models `parse`
from the `yaml` package, which throws on malformed input (`Except.error`);
`some none` is a falsy parsed value.  `render tpl arg` models
`getHandlebars().compile tpl` applied to `arg`. -/
structure Externals where
  defaultOptionValues : OptionsFormValues
  presetsDefaultInput : String
  presetsDefaultTemplate : String
  presetsDefaultPrettierConfig : String
  presetTemplateList : List PresetTemplate
  jsonParseDoc : String → Option String
  yamlParseDoc : String → Except String (Option String)
  jsonParsePrettier : String → Option PrettierOptions
  getZodClientTemplateContext : String → OptionsFormValues → TemplateContext
  render : String → TplArg → String
  maybePretty : String → Option PrettierOptions → String

/-- `PlaygroundContext` (source lines 25-50).  Editors and the monaco
handle are opaque references (`Option Nat`, `none` = `null`). -/
structure Ctx where
  monaco : Option Nat
  inputEditor : Option Nat
  outputEditor : Option Nat
  options : OptionsFormValues
  previewOptions : OptionsFormValues
  optionsFormKey : Nat
  activeInputTab : String
  activeInputIndex : Int
  inputList : List FileTabData
  activeOutputTab : String
  activeOutputIndex : Int
  outputList : List FileTabData
  selectedOpenApiFileName : String
  selectedTemplateName : String
  selectedPrettierConfig : String
  templateContext : Option TemplateContext
  presetTemplates : List (String × String)
  fileForm : FileTabData
deriving DecidableEq, Repr, Inhabited

/-- `PlaygroundEvent` (source lines 52-72).  `presetsLoaded` is the
`onDone` event of the `getPresetTemplates` invocation (lines 185-195). -/
inductive PEvent where
  | editorLoaded (ed : Nat) (name : String) (monaco : Option Nat)
  | updateInput (value : String)
  | selectInputTab (tab : FileTabData)
  | selectOutputTab (tab : FileTabData)
  | selectPresetTemplate (template : PresetTemplate)
  | openOptions
  | closeOptions
  | openMonacoSettings
  | addFile
  | editFile (tab : FileTabData)
  | removeFile (tab : FileTabData)
  | updatePreviewOptions (options : OptionsFormValues)
  | resetPreviewOptions
  | saveOptions (options : OptionsFormValues)
  | submitFileModal (tab : FileTabData)
  | closeModal
  | resize
  | presetsLoaded (data : List (String × String))

/-- The machine's states: `loading`, and the substates of `ready`. -/
inductive PState where
  | loading
  | playing
  | editingOptions
  | editingMonacoSettings
  | editingFileTab
  | creatingFileTab
deriving DecidableEq, Repr

/-- Source line 90. -/
def isValidPrettierConfig (name : String) : Bool :=
  jsStartsWith name ".prettier" && jsEndsWith name ".json"

/-- Source lines 86-87. -/
def isValidDocumentName (name : String) : Bool :=
  !isValidPrettierConfig name &&
    (jsEndsWith name ".yml" || jsEndsWith name ".yaml" || jsEndsWith name ".json")

/-- Source line 89. -/
def isValidTemplateName (name : String) : Bool := jsEndsWith name ".hbs"

/-- Source line 84. -/
def initialOuputTab : String := "api.client.ts"

/-- Source lines 74-83. -/
def initialInputList (ext : Externals) : List FileTabData :=
  [ { name := "api.doc.yaml", content := ext.presetsDefaultInput, index := 0,
      preset := some "petstore.yaml" },
    { name := "template.hbs", content := ext.presetsDefaultTemplate, index := 1,
      preset := (ext.presetTemplateList.head?).map (fun p => p.value) },
    { name := ".prettierrc.json", content := ext.presetsDefaultPrettierConfig, index := 2,
      preset := some "prettier" } ]

/-- The initial machine context (source lines 103-122). -/
def initialContext (ext : Externals) : Ctx :=
  { monaco := none
    inputEditor := none
    outputEditor := none
    options := ext.defaultOptionValues
    previewOptions := ext.defaultOptionValues
    optionsFormKey := 0
    templateContext := none
    activeInputTab := "api.doc.yaml"
    activeInputIndex := 0
    inputList := initialInputList ext
    selectedOpenApiFileName := "api.doc.yaml"
    selectedTemplateName := "template.hbs"
    selectedPrettierConfig := ".prettierrc.json"
    presetTemplates := []
    activeOutputTab := initialOuputTab
    activeOutputIndex := 0
    outputList := [{ name := initialOuputTab, content := "", index := 0 }]
    fileForm := { name := "", content := "", index := -1 } }

/-- `assignEditorRef` (source lines 257-263). -/
def assignEditorRef (ctx : Ctx) (ed : Nat) (name : String) (monaco : Option Nat) : Ctx :=
  if name == "input" then { ctx with inputEditor := some ed }
  else { ctx with outputEditor := some ed, monaco := monaco }

/-- `updateInputEditorValue` (source lines 264-267): a pure editor side
effect, except that `ctx.inputList[ctx.activeInputIndex].content` throws a
`TypeError` when the active index does not resolve and an input editor is
attached. -/
def updateInputEditorValueAct (ctx : Ctx) : Except String Ctx :=
  match ctx.inputEditor with
  | none => .ok ctx
  | some _ =>
    match jsGetElem ctx.inputList ctx.activeInputIndex with
    | none => .error "TypeError: updateInputEditorValue on undefined tab"
    | some _ => .ok ctx

/-- `updateInput` (source lines 268-276):
`updateAtIndex(inputList, activeIndex, { ...inputList[activeIndex], content: value })`,
fused with the element spread (for an out-of-range index both leave the
list unchanged). -/
def updateInputAct (ctx : Ctx) (value : String) : Ctx :=
  { ctx with inputList :=
      ctx.inputList.enum.map (fun p =>
        if (p.1 : Int) = ctx.activeInputIndex then { p.2 with content := value } else p.2) }

/-- Document input resolution at the top of `updateOutput`
(source lines 278-284): the selected document tab's content, overridden by
the submitted tab's content on a `Submit file modal` event. -/
def docInput (ctx : Ctx) (ev : PEvent) : String :=
  let documentIndex := jsFindIndex (fun item => item.name == ctx.selectedOpenApiFileName) ctx.inputList
  let fromSelected := ((jsGetElem ctx.inputList documentIndex).map (fun t => t.content)).getD ""
  match ev with
  | .submitFileModal tab => tab.content
  | _ => fromSelected

/-- Document parsing (source line 290): JSON via `safeJSONParse` when the
input starts with a brace, else YAML via `parse` (which may throw). -/
def parseDoc (ext : Externals) (input : String) : Except String (Option String) :=
  if jsStartsWith input "\x7b" then .ok (ext.jsonParseDoc input) else ext.yamlParseDoc input

/-- Template text resolution (source lines 301-309):
`presetTemplates[presetTemplateList.find(p => p.value === selectedTemplateName)?.template ?? ""]
 ?? templateTab?.content ?? ""`. -/
def resolveTemplateString (ext : Externals) (ctx : Ctx) : String :=
  let templateTab := ctx.inputList.find? (fun item => item.name == ctx.selectedTemplateName)
  ((jsRecordGet ctx.presetTemplates
      (((ext.presetTemplateList.find? (fun preset => preset.value == ctx.selectedTemplateName)).map
          (fun preset => preset.template)).getD "")).orElse
    (fun _ => templateTab.map (fun t => t.content))).getD ""

/-- Prettier config resolution (source lines 313-315). -/
def resolvePrettierConfig (ext : Externals) (ctx : Ctx) : Option PrettierOptions :=
  ext.jsonParsePrettier
    (((ctx.inputList.find? (fun tab => tab.name == ctx.selectedPrettierConfig)).map
        (fun t => t.content)).getD "\x7b\x7d")

/-- Per-group option override (source lines 350-354). -/
def groupOptions (options : OptionsFormValues) (groupName : String) : OptionsFormValues :=
  { options with groupStrategy := "none", apiClientName := capitalize groupName ++ "Api" }

/-- Body of the per-group loop (source lines 346-357): render the template
against the group-narrowed context with the overridden options, then
format. -/
def groupRender (ext : Externals) (templateString : String) (tc : TemplateContext)
    (options : OptionsFormValues) (prettierConfig : Option PrettierOptions)
    (g : String × String) : String :=
  ext.maybePretty (ext.render templateString (.group tc g.2 (groupOptions options g.1)))
    prettierConfig

/-- The `outputByGroupName` record built by the grouped branch of
`updateOutput` (source lines 319-357): the `index` entry, the conditional
`common` entry, then one entry per endpoint group in iteration order. -/
def groupedOutputByGroupName (ext : Externals) (templateString : String) (tc : TemplateContext)
    (options : OptionsFormValues) (prettierConfig : Option PrettierOptions)
    (indexTemplateSrc commonTemplateSrc : String) : List (String × String) :=
  let groupNames := jsFromEntries (tc.endpointsGroups.map (fun g => (capitalize g.1 ++ "Api", g.1)))
  let indexOutput := ext.maybePretty (ext.render indexTemplateSrc (.index groupNames)) prettierConfig
  let acc0 := jsInsert [] "index" indexOutput
  let commonSchemaNames := (tc.commonSchemaNames).getD []
  let acc1 :=
    if commonSchemaNames.length > 0 then
      jsInsert acc0 "common"
        (ext.maybePretty
          (ext.render commonTemplateSrc
            (.common (pick tc.schemas commonSchemaNames) (pick tc.types commonSchemaNames)))
          prettierConfig)
    else acc0
  tc.endpointsGroups.foldl
    (fun acc g => jsInsert acc g.1 (groupRender ext templateString tc options prettierConfig g))
    acc1

/-- `updateOutput` (source lines 277-399).  Pure with respect to the
context apart from its return value; the monaco-model and output-editor
writes are side effects on collaborators and do not touch the context.
`Handlebars.compile(undefined)` throws, hence the errors when a grouped
preset template is missing from the catalog. -/
def updateOutput (ext : Externals) (ctx : Ctx) (ev : PEvent) : Except String Ctx :=
  let input := docInput ctx ev
  if input = "" then .ok ctx else
  match parseDoc ext input with
  | .error e => .error e
  | .ok none => .ok ctx
  | .ok (some openApiDoc) =>
    let options := ctx.options
    let templateContext := ext.getZodClientTemplateContext openApiDoc options
    let templateString := resolveTemplateString ext ctx
    if templateString = "" then .ok ctx else
    let prettierConfig := resolvePrettierConfig ext ctx
    if jsIncludes options.groupStrategy "file" then
      match jsRecordGet ctx.presetTemplates "template-grouped-index" with
      | none => .error "TypeError: compile of undefined grouped-index template"
      | some indexTemplateSrc =>
        match jsRecordGet ctx.presetTemplates "template-grouped-common" with
        | none => .error "TypeError: compile of undefined grouped-common template"
        | some commonTemplateSrc =>
          let outputByGroupName := groupedOutputByGroupName ext templateString templateContext
            options prettierConfig indexTemplateSrc commonTemplateSrc
          let outputList := outputByGroupName.enum.map
            (fun p => ({ name := p.2.1 ++ ".ts", content := p.2.2, index := (p.1 : Int) } : FileTabData))
          match outputList with
          | [] => .error "TypeError: outputList[0] is undefined"
          | first :: _ =>
            .ok { ctx with outputList := outputList, activeOutputIndex := 0,
                           activeOutputTab := first.name }
    else
      let output := ext.render templateString (.full templateContext options)
      let prettyOutput := ext.maybePretty output prettierConfig
      .ok { ctx with templateContext := some templateContext,
                     outputList := [{ name := initialOuputTab, content := prettyOutput, index := 0 }] }

/-- `selectInputTab` (source lines 400-403). -/
def selectInputTabAct (ctx : Ctx) (tab : FileTabData) : Ctx :=
  { ctx with activeInputTab := tab.name,
             activeInputIndex := jsFindIndex (fun t => t.name == tab.name) ctx.inputList }

/-- `selectOutputTab` (source lines 464-467). -/
def selectOutputTabAct (ctx : Ctx) (tab : FileTabData) : Ctx :=
  { ctx with activeOutputTab := tab.name,
             activeOutputIndex := jsFindIndex (fun t => t.name == tab.name) ctx.outputList }

/-- The value assigned by `updateSelectedOpenApiFileName` (source lines
404-420). -/
def nextSelectedOpenApiFileName (ctx : Ctx) (ev : PEvent) : String :=
  match ev with
  | .removeFile _ =>
    match ctx.inputList.findIdx? (fun tab => isValidDocumentName tab.name) with
    | none => ctx.selectedOpenApiFileName
    | some nextIndex =>
      ((ctx.inputList.get? nextIndex).map (fun t => t.name)).getD ctx.selectedOpenApiFileName
  | .selectInputTab tab | .submitFileModal tab =>
    if tab.content = "" then ctx.selectedOpenApiFileName
    else
      match ctx.inputList.findIdx? (fun t => t.name == tab.name) with
      | none => ctx.selectedOpenApiFileName
      | some nextIndex =>
        if isValidDocumentName (((ctx.inputList.get? nextIndex).map (fun t => t.name)).getD "")
        then tab.name
        else ((ctx.inputList.find? (fun t => isValidDocumentName t.name)).map
                (fun t => t.name)).getD ""
  | _ => ctx.selectedOpenApiFileName

/-- `updateSelectedOpenApiFileName` as a context action. -/
def updateSelectedOpenApiFileNameAct (ctx : Ctx) (ev : PEvent) : Ctx :=
  { ctx with selectedOpenApiFileName := nextSelectedOpenApiFileName ctx ev }

/-- The value assigned by `updateSelectedTemplateName` (source lines
421-437). -/
def nextSelectedTemplateName (ctx : Ctx) (ev : PEvent) : String :=
  match ev with
  | .removeFile _ =>
    match ctx.inputList.findIdx? (fun tab => isValidTemplateName tab.name) with
    | none => ctx.selectedTemplateName
    | some nextIndex =>
      ((ctx.inputList.get? nextIndex).map (fun t => t.name)).getD ctx.selectedTemplateName
  | .selectInputTab tab | .submitFileModal tab =>
    if tab.content = "" then ctx.selectedTemplateName
    else
      match ctx.inputList.findIdx? (fun t => t.name == tab.name) with
      | none => ctx.selectedTemplateName
      | some nextIndex =>
        if isValidTemplateName (((ctx.inputList.get? nextIndex).map (fun t => t.name)).getD "")
        then tab.name
        else ctx.selectedTemplateName
  | _ => ctx.selectedTemplateName

/-- `updateSelectedTemplateName` as a context action. -/
def updateSelectedTemplateNameAct (ctx : Ctx) (ev : PEvent) : Ctx :=
  { ctx with selectedTemplateName := nextSelectedTemplateName ctx ev }

/-- The value assigned by `updateSelectedPrettierConfig` (source lines
438-454). -/
def nextSelectedPrettierConfig (ctx : Ctx) (ev : PEvent) : String :=
  match ev with
  | .removeFile _ =>
    match ctx.inputList.findIdx? (fun tab => isValidPrettierConfig tab.name) with
    | none => ctx.selectedPrettierConfig
    | some nextIndex =>
      ((ctx.inputList.get? nextIndex).map (fun t => t.name)).getD ctx.selectedPrettierConfig
  | .selectInputTab tab | .submitFileModal tab =>
    if tab.content = "" then ctx.selectedPrettierConfig
    else
      match ctx.inputList.findIdx? (fun t => t.name == tab.name) with
      | none => ctx.selectedPrettierConfig
      | some nextIndex =>
        if isValidPrettierConfig (((ctx.inputList.get? nextIndex).map (fun t => t.name)).getD "")
        then tab.name
        else ctx.selectedPrettierConfig
  | _ => ctx.selectedPrettierConfig

/-- `updateSelectedPrettierConfig` as a context action. -/
def updateSelectedPrettierConfigAct (ctx : Ctx) (ev : PEvent) : Ctx :=
  { ctx with selectedPrettierConfig := nextSelectedPrettierConfig ctx ev }

/-- `updateSelectedDocOrTemplate` (source lines 455-463); throws when the
active index does not resolve (`tab.name` on `undefined`). -/
def updateSelectedDocOrTemplateAct (ctx : Ctx) : Except String Ctx :=
  match jsGetElem ctx.inputList ctx.activeInputIndex with
  | none => .error "TypeError: updateSelectedDocOrTemplate on undefined tab"
  | some tab =>
    .ok { ctx with
      selectedOpenApiFileName :=
        if isValidDocumentName tab.name then tab.name else ctx.selectedOpenApiFileName,
      selectedTemplateName :=
        if isValidTemplateName tab.name then tab.name else ctx.selectedTemplateName }

/-- `selectPresetTemplate` (source lines 468-490). -/
def selectPresetTemplateAct (ctx : Ctx) (template : PresetTemplate) : Ctx :=
  let content := (jsRecordGet ctx.presetTemplates template.template).getD ""
  let newInputList :=
    if content = "" then ctx.inputList
    else
      match ctx.inputList.findIdx? (fun tab => jsTruthyOptStr tab.preset && isValidTemplateName tab.name) with
      | none => ctx.inputList
      | some presetTemplateIndex =>
        match ctx.inputList.get? presetTemplateIndex with
        | none => ctx.inputList
        | some old =>
          updateAtIndex ctx.inputList (presetTemplateIndex : Int)
            { old with content := content, preset := some template.value }
  let newOptions :=
    match template.options with
    | none => ctx.options
    | some patch => patch ctx.options
  { ctx with selectedTemplateName := template.value, inputList := newInputList,
             options := newOptions }

/-- `initFileForm` (source lines 491-493). -/
def initFileFormAct (ctx : Ctx) : Ctx :=
  { ctx with fileForm := { name := "", content := "", index := (ctx.inputList.length : Int) } }

/-- `removeFile` (source lines 495-511); `next[nextIndex].name` throws when
the list becomes empty. -/
def removeFileAct (ctx : Ctx) (tab : FileTabData) : Except String Ctx :=
  let index := tab.index
  let next := removeAtIndex ctx.inputList index
  let isCurrentActive := ctx.activeInputIndex == index
  if !isCurrentActive then .ok { ctx with inputList := next }
  else
    let nextIndex := limit index 0 ((next.length : Int) - 1)
    match jsGetElem next nextIndex with
    | none => .error "TypeError: removeFile next[nextIndex] is undefined"
    | some t => .ok { ctx with inputList := next, activeInputTab := t.name,
                               activeInputIndex := nextIndex }

/-- Guard `willInputAndOutputEditorBothBeReady` (source line 536):
`Boolean(ctx.inputEditor ?? ctx.outputEditor)` — true when at least one
editor reference is already recorded. -/
def willInputAndOutputEditorBothBeReady (ctx : Ctx) : Bool :=
  ((ctx.inputEditor).orElse (fun _ => ctx.outputEditor)).isSome

/-- Guard `isNextTabAnotherOpenApiDoc` (source lines 537-542); `none` is a
`TypeError` (reading `.name` of `inputList[-1]`). -/
def isNextTabAnotherOpenApiDoc (ctx : Ctx) (tab : FileTabData) : Option Bool :=
  if tab.name == ctx.selectedOpenApiFileName then some false
  else
    (jsGetElem ctx.inputList (jsFindIndex (fun t => t.name == tab.name) ctx.inputList)).map
      (fun t => isValidDocumentName t.name)

/-- Guard `isNextTabAnotherTemplate` (source lines 543-548). -/
def isNextTabAnotherTemplate (ctx : Ctx) (tab : FileTabData) : Option Bool :=
  if tab.name == ctx.selectedTemplateName then some false
  else
    (jsGetElem ctx.inputList (jsFindIndex (fun t => t.name == tab.name) ctx.inputList)).map
      (fun t => isValidTemplateName t.name)

/-- Guard `isNextTabAnotherPrettierConfig` (source lines 549-554). -/
def isNextTabAnotherPrettierConfig (ctx : Ctx) (tab : FileTabData) : Option Bool :=
  if tab.name == ctx.selectedPrettierConfig then some false
  else
    (jsGetElem ctx.inputList (jsFindIndex (fun t => t.name == tab.name) ctx.inputList)).map
      (fun t => isValidPrettierConfig t.name)

/-- Guard `wasInputEmpty` (source lines 555-557). -/
def wasInputEmpty (ctx : Ctx) (value : String) : Option Bool :=
  (jsGetElem ctx.inputList ctx.activeInputIndex).map
    (fun t => jsTrim t.content == "" && value != "")

/-- One run-to-completion step of the playground machine (the transition
table of `createMachine`, source lines 124-254, with
`predictableActionArguments`: assign actions execute in declaration order,
each seeing the context produced by the previous one; guards are evaluated
before any action, in declaration order).  Events not handled in the
current state are ignored (`Resize` and its layout side effect included).
A thrown guard or action aborts the step with the error. -/
def playgroundStep (ext : Externals) (s : PState) (ctx : Ctx) (ev : PEvent) :
    Except String (PState × Ctx) :=
  match s, ev with
  | .loading, .editorLoaded ed name monaco =>
    if willInputAndOutputEditorBothBeReady ctx then
      match updateOutput ext (assignEditorRef ctx ed name monaco) ev with
      | .error e => .error e
      | .ok c2 => .ok (.playing, c2)
    else .ok (.loading, assignEditorRef ctx ed name monaco)
  | .playing, .updateInput v =>
    (match wasInputEmpty ctx v with
    | none => .error "TypeError: wasInputEmpty on undefined tab"
    | some true =>
      match updateOutput ext (updateInputAct ctx v) ev with
      | .error e => .error e
      | .ok c2 =>
        match updateSelectedDocOrTemplateAct c2 with
        | .error e => .error e
        | .ok c3 => .ok (.playing, c3)
    | some false =>
      match updateOutput ext (updateInputAct ctx v) ev with
      | .error e => .error e
      | .ok c2 => .ok (.playing, c2))
  | .playing, .selectInputTab tab =>
    (match isNextTabAnotherOpenApiDoc ctx tab with
    | none => .error "TypeError: isNextTabAnotherOpenApiDoc on undefined tab"
    | some true =>
      match updateOutput ext (updateSelectedOpenApiFileNameAct (selectInputTabAct ctx tab) ev) ev with
      | .error e => .error e
      | .ok c3 => .ok (.playing, c3)
    | some false =>
      match isNextTabAnotherTemplate ctx tab with
      | none => .error "TypeError: isNextTabAnotherTemplate on undefined tab"
      | some true =>
        match updateOutput ext (updateSelectedTemplateNameAct (selectInputTabAct ctx tab) ev) ev with
        | .error e => .error e
        | .ok c3 => .ok (.playing, c3)
      | some false =>
        match isNextTabAnotherPrettierConfig ctx tab with
        | none => .error "TypeError: isNextTabAnotherPrettierConfig on undefined tab"
        | some true =>
          match updateOutput ext (updateSelectedPrettierConfigAct (selectInputTabAct ctx tab) ev) ev with
          | .error e => .error e
          | .ok c3 => .ok (.playing, c3)
        | some false => .ok (.playing, selectInputTabAct ctx tab))
  | .playing, .selectOutputTab tab => .ok (.playing, selectOutputTabAct ctx tab)
  | .playing, .selectPresetTemplate template =>
    (match updateOutput ext (selectPresetTemplateAct ctx template) ev with
    | .error e => .error e
    | .ok c2 => .ok (.playing, c2))
  | .playing, .openOptions => .ok (.editingOptions, ctx)
  | .playing, .openMonacoSettings => .ok (.editingMonacoSettings, ctx)
  | .playing, .addFile => .ok (.creatingFileTab, initFileFormAct ctx)
  | .playing, .editFile tab => .ok (.editingFileTab, { ctx with fileForm := tab })
  | .playing, .removeFile tab =>
    (match removeFileAct ctx tab with
    | .error e => .error e
    | .ok c1 =>
      match updateOutput ext
        (updateSelectedPrettierConfigAct
          (updateSelectedTemplateNameAct (updateSelectedOpenApiFileNameAct c1 ev) ev) ev) ev with
      | .error e => .error e
      | .ok c5 => .ok (.playing, c5))
  | .playing, .presetsLoaded data => .ok (.playing, { ctx with presetTemplates := data })
  | .editingOptions, .updatePreviewOptions o =>
    .ok (.editingOptions, { ctx with previewOptions := o })
  | .editingOptions, .resetPreviewOptions =>
    .ok (.editingOptions, { ctx with previewOptions := ext.defaultOptionValues,
                                     optionsFormKey := ctx.optionsFormKey + 1 })
  | .editingOptions, .saveOptions o =>
    (match updateOutput ext { ctx with options := o, previewOptions := o } ev with
    | .error e => .error e
    | .ok c2 => .ok (.playing, c2))
  | .editingOptions, .closeOptions => .ok (.playing, ctx)
  | .editingMonacoSettings, .closeModal => .ok (.playing, ctx)
  | .editingFileTab, .submitFileModal tab =>
    (match updateInputEditorValueAct
        (selectInputTabAct { ctx with inputList := updateAtIndex ctx.inputList ctx.fileForm.index tab } tab) with
    | .error e => .error e
    | .ok c3 =>
      match updateOutput ext
        (updateSelectedPrettierConfigAct
          (updateSelectedTemplateNameAct (updateSelectedOpenApiFileNameAct c3 ev) ev) ev) ev with
      | .error e => .error e
      | .ok c7 => .ok (.playing, c7))
  | .editingFileTab, .closeModal => .ok (.playing, ctx)
  | .creatingFileTab, .submitFileModal tab =>
    (match updateInputEditorValueAct
        (selectInputTabAct { ctx with inputList := ctx.inputList ++ [tab] } tab) with
    | .error e => .error e
    | .ok c3 =>
      match updateOutput ext
        (updateSelectedPrettierConfigAct
          (updateSelectedTemplateNameAct (updateSelectedOpenApiFileNameAct c3 ev) ev) ev) ev with
      | .error e => .error e
      | .ok c7 => .ok (.playing, c7))
  | .creatingFileTab, .closeModal => .ok (.playing, ctx)
  | _, _ => .ok (s, ctx)

/-- States reachable from the initial loading state by successful steps. -/
inductive Reachable (ext : Externals) : PState → Ctx → Prop where
  | init : Reachable ext .loading (initialContext ext)
  | next {s c ev s' c'} : Reachable ext s c → playgroundStep ext s c ev = .ok (s', c') →
      Reachable ext s' c'

instance {ε α : Type} [DecidableEq ε] [DecidableEq α] : DecidableEq (Except ε α) := fun a b =>
  match a, b with
  | .ok x, .ok y =>
    if h : x = y then .isTrue (by rw [h])
    else .isFalse (fun hh => h (Except.ok.inj hh))
  | .ok _, .error _ => .isFalse (fun hh => Except.noConfusion hh)
  | .error _, .ok _ => .isFalse (fun hh => Except.noConfusion hh)
  | .error e, .error f =>
    if h : e = f then .isTrue (by rw [h])
    else .isFalse (fun hh => h (Except.error.inj hh))

/-- A concrete collaborator instantiation whose YAML parser rejects every
document; the seeded document content is empty, so the initial regeneration
is a no-change. -/
def extA : Externals :=
  { defaultOptionValues := { groupStrategy := "none", apiClientName := "api" }
    presetsDefaultInput := ""
    presetsDefaultTemplate := "t"
    presetsDefaultPrettierConfig := "cfg"
    presetTemplateList := []
    jsonParseDoc := fun _ => none
    yamlParseDoc := fun _ => .error "YAMLParseError"
    jsonParsePrettier := fun _ => none
    getZodClientTemplateContext := fun _ _ => {}
    render := fun _ _ => ""
    maybePretty := fun s _ => s }


/-- Run a sequence of events from a state, stopping at the first thrown
error. -/
def runEvents (ext : Externals) (s : PState) (ctx : Ctx) (evs : List PEvent) :
    Except String (PState × Ctx) :=
  match evs with
  | [] => .ok (s, ctx)
  | ev :: rest =>
    match playgroundStep ext s ctx ev with
    | .error e => .error e
    | .ok (s', c') => runEvents ext s' c' rest

/-- C6 counterexample run: load both editors, open the options editor, edit
the draft options, then close without saving. -/
def c6events : List PEvent :=
  [.editorLoaded 1 "input" none, .editorLoaded 2 "output" none, .openOptions,
   .updatePreviewOptions { groupStrategy := "tag", apiClientName := "api" }, .closeOptions]

/-- C6: refuted as stated.  After editing the draft options and closing the
options editor without saving, the machine is back in Playing but
`previewOptions` still holds the draft edits (`groupStrategy = "tag"`),
not the committed options (`groupStrategy = "none"`): the `Close options`
transition has no action, so the draft delta is not discarded. -/
theorem c6_counterexample :
    (runEvents extA .loading (initialContext extA) c6events).toOption.map
      (fun r => (r.1, r.2.previewOptions.groupStrategy, r.2.options.groupStrategy,
                 r.2.previewOptions == r.2.options))
      = some (.playing, "tag", "none", false) := by decide

/-- C6 (amended): a `Close options` event in the Editing-options substate
returns to Playing with the context completely unchanged — no regeneration
(`outputList` keeps its value) but also no discarding of the draft:
`previewOptions` keeps whatever edits were made. -/
theorem c6_close_options_no_change (ext : Externals) (ctx : Ctx) :
    playgroundStep ext .editingOptions ctx .closeOptions = .ok (.playing, ctx) := rfl

/-- Context after the first duplicate input-surface attachment. -/
def c5ctx1 : Ctx := { initialContext extA with inputEditor := some 1 }

/-- Context after the second duplicate input-surface attachment: the
machine is in Playing with no output editor. -/
def c5ctx2 : Ctx := { initialContext extA with inputEditor := some 2 }

/-- C5: refuted as stated.  Two `Editor Loaded` events both naming the
input surface reach the Ready (Playing) state while the output editor
reference is still null: the guard `Boolean(inputEditor ?? outputEditor)`
only checks that some editor was recorded before the event. -/
theorem c5_counterexample :
    Reachable extA .playing c5ctx2 ∧ c5ctx2.outputEditor = none :=
  ⟨Reachable.next
      (Reachable.next Reachable.init
        (by decide :
          playgroundStep extA .loading (initialContext extA) (.editorLoaded 1 "input" none)
            = .ok (.loading, c5ctx1)))
      (by decide :
        playgroundStep extA .loading c5ctx1 (.editorLoaded 2 "input" none)
          = .ok (.playing, c5ctx2)),
   rfl⟩

/-- C5 (amended): a successful `Editor Loaded` step out of Loading reaches
Playing exactly when at least one editor reference was already recorded
before the event — not when both are recorded after it.  (When the two
attachment events name distinct surfaces this coincides with the claimed
condition, but duplicate attachments of one surface also satisfy it.) -/
theorem c5_loading_exit_guard (ext : Externals) (ctx : Ctx) (ed : Nat) (name : String)
    (monaco : Option Nat) (s' : PState) (c' : Ctx)
    (h : playgroundStep ext .loading ctx (.editorLoaded ed name monaco) = .ok (s', c')) :
    s' = .playing ↔ (ctx.inputEditor.isSome || ctx.outputEditor.isSome) = true := by
  have hg : willInputAndOutputEditorBothBeReady ctx
      = (ctx.inputEditor.isSome || ctx.outputEditor.isSome) := by
    cases hi : ctx.inputEditor <;>
      simp [willInputAndOutputEditorBothBeReady, Option.orElse, hi]
  simp only [playgroundStep] at h
  rw [hg] at h
  by_cases hb : (ctx.inputEditor.isSome || ctx.outputEditor.isSome) = true
  · rw [if_pos hb] at h
    cases hu : updateOutput ext (assignEditorRef ctx ed name monaco)
        (.editorLoaded ed name monaco) with
    | error e => rw [hu] at h; exact absurd h (by simp)
    | ok c2 =>
      rw [hu] at h
      simp only [Except.ok.injEq, Prod.mk.injEq] at h
      simp [← h.1, hb]
  · rw [if_neg hb] at h
    simp only [Except.ok.injEq, Prod.mk.injEq] at h
    constructor
    · intro hs; rw [hs] at h; exact absurd h.1 (by simp)
    · intro hs; exact absurd hs hb

/-- C5 witness: the normal attachment order (input surface, then output
surface) instantiates the amended guard characterisation. -/
theorem c5_witness :
    playgroundStep extA .loading c5ctx1 (.editorLoaded 2 "output" none)
        = .ok (.playing, { c5ctx1 with outputEditor := some 2, monaco := none }) ∧
      (.playing = (.playing : PState) ↔ (c5ctx1.inputEditor.isSome || c5ctx1.outputEditor.isSome) = true) :=
  ⟨by decide,
   c5_loading_exit_guard extA c5ctx1 2 "output" none .playing
     { c5ctx1 with outputEditor := some 2, monaco := none } (by decide)⟩

/-- Replace the content of the tab(s) named by the selected-document
pointer (a specification-side construction used to vary the document
content of a context). -/
def setDocContent (ctx : Ctx) (c : String) : Ctx :=
  { ctx with inputList := ctx.inputList.map (fun t =>
      if t.name == ctx.selectedOpenApiFileName then { t with content := c } else t) }

/-- The initial context with the document tab holding content that does not
begin with a brace and that `extA`'s YAML parser rejects. -/
def c1ctx : Ctx := setDocContent (initialContext extA) "notjson"

/-- C1: refuted as stated.  With a non-empty selected document content that
does not begin with a brace and fails YAML parsing, `updateOutput`
propagates the parser's exception instead of returning the context
unchanged; the whole `Update input` step aborts with the error. -/
theorem c1_counterexample :
    updateOutput extA c1ctx (.updateInput "notjson") = .error "YAMLParseError" ∧
      (playgroundStep extA .playing c1ctx (.updateInput "notjson")).toOption = none := by
  decide

/-- C1 (amended): only the JSON branch of document parsing fails silently.
When the resolved document input is non-empty and begins with a brace, a
`safeJSONParse` failure makes `updateOutput` return the context unchanged;
when it does not begin with a brace, a YAML `parse` exception propagates
uncaught to the caller. -/
theorem c1_parse_failure_behavior (ext : Externals) (ctx : Ctx) (ev : PEvent)
    (h0 : docInput ctx ev ≠ "") :
    (jsStartsWith (docInput ctx ev) "\x7b" = true →
      ext.jsonParseDoc (docInput ctx ev) = none →
      updateOutput ext ctx ev = .ok ctx) ∧
    (jsStartsWith (docInput ctx ev) "\x7b" = false →
      ∀ e, ext.yamlParseDoc (docInput ctx ev) = .error e →
      updateOutput ext ctx ev = .error e) := by
  constructor
  · intro hs hj
    simp only [updateOutput, parseDoc]
    rw [if_neg h0, if_pos hs, hj]
  · intro hs e hy
    simp only [updateOutput, parseDoc]
    rw [if_neg h0, if_neg (by simp [hs]), hy]

/-- C1 witness: the amended behaviour instantiated at the concrete
YAML-failing context. -/
theorem c1_witness :
    docInput c1ctx (.updateInput "notjson") ≠ "" ∧
      updateOutput extA c1ctx (.updateInput "notjson") = .error "YAMLParseError" :=
  ⟨by decide,
   (c1_parse_failure_behavior extA c1ctx (.updateInput "notjson") (by decide)).2
     (by decide) "YAMLParseError" rfl⟩

/-- Looking up the element at the index returned by `findIdx?` is the same
as `find?`. -/
theorem findIdx?_get?_eq_find? {α : Type} (p : α → Bool) (l : List α) :
    (match l.findIdx? p with
     | none => (none : Option α)
     | some i => l.get? i) = l.find? p := by
  induction l with
  | nil => rfl
  | cons a as ih =>
    rw [List.findIdx?_cons, List.findIdx?_succ]
    by_cases h : p a
    · simp [h, List.find?_cons]
    · simp only [h, List.find?_cons, Bool.false_eq_true, if_false]
      cases hf : as.findIdx? p with
      | none => rw [hf] at ih; simpa [hf] using ih
      | some i => rw [hf] at ih; simpa [hf] using ih

/-- A predicate false on every element gives `findIdx? = none`. -/
theorem findIdx?_none_of_absent {α : Type} (p : α → Bool) (l : List α)
    (h : ∀ a ∈ l, p a = false) : l.findIdx? p = none :=
  List.findIdx?_eq_none_iff.mpr h

/-- A tab name absent from the input list: both `jsFindIndex` and the
`jsGetElem` at that index come back empty. -/
theorem absent_name_lookup (ctx : Ctx) (tab : FileTabData)
    (habs : ∀ t ∈ ctx.inputList, t.name ≠ tab.name) :
    jsFindIndex (fun t => t.name == tab.name) ctx.inputList = -1 ∧
      jsGetElem ctx.inputList (-1 : Int) = none := by
  constructor
  · have : ctx.inputList.findIdx? (fun t => t.name == tab.name) = none :=
      findIdx?_none_of_absent _ _ (fun a ha => by
        have := habs a ha
        simp [this])
    simp [jsFindIndex, this]
  · simp [jsGetElem]

/-- C8: refuted as stated.  Selecting a tab name absent from the input list
is not a silent no-op: the first guard reads `.name` of
`inputList[-1]` (`undefined`) and the step aborts with a `TypeError`. -/
theorem c8_counterexample :
    ((initialContext extA).inputList.all (fun t => t.name != "nope.txt")) = true ∧
      (playgroundStep extA .playing (initialContext extA)
        (.selectInputTab { name := "nope.txt", content := "", index := 0 })).toOption = none := by
  decide

/-- C8 (amended): a `Select input tab` event whose tab name is absent from
the input list throws a `TypeError` during guard evaluation whenever the
name differs from at least one of the three role pointers (the guards are
tried in document, template, prettier order and each crashes on
`inputList[-1].name`); in the residual case where the absent name equals
all three pointers, every guard returns false and the event sets
`activeInputTab` to the absent name and `activeInputIndex` to `-1` — in no
case is it a silent no-op that keeps the active pointer resolvable. -/
theorem c8_select_absent_tab (ext : Externals) (ctx : Ctx) (tab : FileTabData)
    (habs : ∀ t ∈ ctx.inputList, t.name ≠ tab.name) :
    ((tab.name = ctx.selectedOpenApiFileName ∧ tab.name = ctx.selectedTemplateName ∧
        tab.name = ctx.selectedPrettierConfig) →
      playgroundStep ext .playing ctx (.selectInputTab tab)
        = .ok (.playing, { ctx with activeInputTab := tab.name, activeInputIndex := -1 })) ∧
    (¬(tab.name = ctx.selectedOpenApiFileName ∧ tab.name = ctx.selectedTemplateName ∧
        tab.name = ctx.selectedPrettierConfig) →
      (playgroundStep ext .playing ctx (.selectInputTab tab)).toOption = none) := by
  obtain ⟨hfi, hget⟩ := absent_name_lookup ctx tab habs
  have hsel : selectInputTabAct ctx tab
      = { ctx with activeInputTab := tab.name, activeInputIndex := -1 } := by
    simp [selectInputTabAct, hfi]
  constructor
  · rintro ⟨h1, h2, h3⟩
    have hg1 : isNextTabAnotherOpenApiDoc ctx tab = some false := by
      simp [isNextTabAnotherOpenApiDoc, h1]
    have hg2 : isNextTabAnotherTemplate ctx tab = some false := by
      simp [isNextTabAnotherTemplate, h2]
    have hg3 : isNextTabAnotherPrettierConfig ctx tab = some false := by
      simp [isNextTabAnotherPrettierConfig, h3]
    simp only [playgroundStep, hg1, hg2, hg3, hsel]
  · intro hne
    by_cases h1 : tab.name = ctx.selectedOpenApiFileName
    · by_cases h2 : tab.name = ctx.selectedTemplateName
      · have h3 : ¬ tab.name = ctx.selectedPrettierConfig := fun h3 => hne ⟨h1, h2, h3⟩
        have hg1 : isNextTabAnotherOpenApiDoc ctx tab = some false := by
          simp [isNextTabAnotherOpenApiDoc, h1]
        have hg2 : isNextTabAnotherTemplate ctx tab = some false := by
          simp [isNextTabAnotherTemplate, h2]
        have hg3 : isNextTabAnotherPrettierConfig ctx tab = none := by
          simp [isNextTabAnotherPrettierConfig, h3, hfi, hget]
        simp [playgroundStep, hg1, hg2, hg3, Except.toOption]
      · have hg1 : isNextTabAnotherOpenApiDoc ctx tab = some false := by
          simp [isNextTabAnotherOpenApiDoc, h1]
        have hg2 : isNextTabAnotherTemplate ctx tab = none := by
          simp [isNextTabAnotherTemplate, h2, hfi, hget]
        simp [playgroundStep, hg1, hg2, Except.toOption]
    · have hg1 : isNextTabAnotherOpenApiDoc ctx tab = none := by
        simp [isNextTabAnotherOpenApiDoc, h1, hfi, hget]
      simp [playgroundStep, hg1, Except.toOption]

/-- C8 witness: the amended statement instantiated at the initial context
with an absent file name. -/
theorem c8_witness :
    (playgroundStep extA .playing (initialContext extA)
        (.selectInputTab { name := "missing.txt", content := "", index := 0 })).toOption = none :=
  (c8_select_absent_tab extA (initialContext extA)
      { name := "missing.txt", content := "", index := 0 } (by decide)).2 (by decide)

/-- A successful `updateOutput` never touches the input list or the three
role pointers. -/
theorem updateOutput_ok_preserves (ext : Externals) (ctx c' : Ctx) (ev : PEvent)
    (h : updateOutput ext ctx ev = .ok c') :
    c'.inputList = ctx.inputList ∧
      c'.selectedOpenApiFileName = ctx.selectedOpenApiFileName ∧
      c'.selectedTemplateName = ctx.selectedTemplateName ∧
      c'.selectedPrettierConfig = ctx.selectedPrettierConfig := by
  simp only [updateOutput] at h
  split at h
  · cases h; exact ⟨rfl, rfl, rfl, rfl⟩
  · split at h
    · exact absurd h (by simp)
    · cases h; exact ⟨rfl, rfl, rfl, rfl⟩
    · split at h
      · cases h; exact ⟨rfl, rfl, rfl, rfl⟩
      · split at h
        · split at h
          · exact absurd h (by simp)
          · split at h
            · exact absurd h (by simp)
            · split at h
              · exact absurd h (by simp)
              · cases h; exact ⟨rfl, rfl, rfl, rfl⟩
        · cases h; exact ⟨rfl, rfl, rfl, rfl⟩

/-- On `Remove file`, the document pointer is reassigned to the first
matching tab, or retained when none matches. -/
theorem nextSelectedOpenApiFileName_remove (c : Ctx) (tab : FileTabData) :
    nextSelectedOpenApiFileName c (.removeFile tab)
      = ((c.inputList.find? (fun t => isValidDocumentName t.name)).map
          (fun t => t.name)).getD c.selectedOpenApiFileName := by
  have hb := findIdx?_get?_eq_find? (fun t : FileTabData => isValidDocumentName t.name) c.inputList
  simp only [nextSelectedOpenApiFileName]
  rw [← hb]
  cases hf : c.inputList.findIdx? (fun t => isValidDocumentName t.name) with
  | none => rfl
  | some i =>
    cases hg : c.inputList.get? i with
    | none => rfl
    | some t => rfl

/-- On `Remove file`, the template pointer is reassigned to the first
matching tab, or retained when none matches. -/
theorem nextSelectedTemplateName_remove (c : Ctx) (tab : FileTabData) :
    nextSelectedTemplateName c (.removeFile tab)
      = ((c.inputList.find? (fun t => isValidTemplateName t.name)).map
          (fun t => t.name)).getD c.selectedTemplateName := by
  have hb := findIdx?_get?_eq_find? (fun t : FileTabData => isValidTemplateName t.name) c.inputList
  simp only [nextSelectedTemplateName]
  rw [← hb]
  cases hf : c.inputList.findIdx? (fun t => isValidTemplateName t.name) with
  | none => rfl
  | some i =>
    cases hg : c.inputList.get? i with
    | none => rfl
    | some t => rfl

/-- On `Remove file`, the prettier pointer is reassigned to the first
matching tab, or retained when none matches. -/
theorem nextSelectedPrettierConfig_remove (c : Ctx) (tab : FileTabData) :
    nextSelectedPrettierConfig c (.removeFile tab)
      = ((c.inputList.find? (fun t => isValidPrettierConfig t.name)).map
          (fun t => t.name)).getD c.selectedPrettierConfig := by
  have hb := findIdx?_get?_eq_find? (fun t : FileTabData => isValidPrettierConfig t.name) c.inputList
  simp only [nextSelectedPrettierConfig]
  rw [← hb]
  cases hf : c.inputList.findIdx? (fun t => isValidPrettierConfig t.name) with
  | none => rfl
  | some i =>
    cases hg : c.inputList.get? i with
    | none => rfl
    | some t => rfl

/-- A successful `removeFile` action removes the element at the event
tab's `index` field and leaves the role pointers untouched. -/
theorem removeFileAct_ok (ctx : Ctx) (tab : FileTabData) (c1 : Ctx)
    (h : removeFileAct ctx tab = .ok c1) :
    c1.inputList = removeAtIndex ctx.inputList tab.index ∧
      c1.selectedOpenApiFileName = ctx.selectedOpenApiFileName ∧
      c1.selectedTemplateName = ctx.selectedTemplateName ∧
      c1.selectedPrettierConfig = ctx.selectedPrettierConfig := by
  simp only [removeFileAct] at h
  split at h
  · cases h; exact ⟨rfl, rfl, rfl, rfl⟩
  · split at h
    · exact absurd h (by simp)
    · cases h; exact ⟨rfl, rfl, rfl, rfl⟩

/-- The three role-pointer updates run in sequence on a `Remove file`
event: each pointer independently becomes the first matching tab of the
(already reduced) input list, or keeps its previous value. -/
theorem tripleUpdate_remove (c : Ctx) (tab : FileTabData) :
    (updateSelectedPrettierConfigAct
        (updateSelectedTemplateNameAct (updateSelectedOpenApiFileNameAct c (.removeFile tab))
          (.removeFile tab)) (.removeFile tab)).inputList = c.inputList ∧
    (updateSelectedPrettierConfigAct
        (updateSelectedTemplateNameAct (updateSelectedOpenApiFileNameAct c (.removeFile tab))
          (.removeFile tab)) (.removeFile tab)).selectedOpenApiFileName
      = ((c.inputList.find? (fun t => isValidDocumentName t.name)).map
          (fun t => t.name)).getD c.selectedOpenApiFileName ∧
    (updateSelectedPrettierConfigAct
        (updateSelectedTemplateNameAct (updateSelectedOpenApiFileNameAct c (.removeFile tab))
          (.removeFile tab)) (.removeFile tab)).selectedTemplateName
      = ((c.inputList.find? (fun t => isValidTemplateName t.name)).map
          (fun t => t.name)).getD c.selectedTemplateName ∧
    (updateSelectedPrettierConfigAct
        (updateSelectedTemplateNameAct (updateSelectedOpenApiFileNameAct c (.removeFile tab))
          (.removeFile tab)) (.removeFile tab)).selectedPrettierConfig
      = ((c.inputList.find? (fun t => isValidPrettierConfig t.name)).map
          (fun t => t.name)).getD c.selectedPrettierConfig := by
  refine ⟨rfl, ?_, ?_, ?_⟩
  · simp only [updateSelectedPrettierConfigAct, updateSelectedTemplateNameAct,
      updateSelectedOpenApiFileNameAct]
    rw [nextSelectedOpenApiFileName_remove]
  · simp only [updateSelectedPrettierConfigAct, updateSelectedTemplateNameAct,
      updateSelectedOpenApiFileNameAct]
    rw [nextSelectedTemplateName_remove]
  · simp only [updateSelectedPrettierConfigAct, updateSelectedTemplateNameAct,
      updateSelectedOpenApiFileNameAct]
    rw [nextSelectedPrettierConfig_remove]

/-- Full characterisation of a successful `Remove file` step: the element
at the event tab's index is removed, and each role pointer becomes the
name of the first tab of the reduced list matching that role's predicate,
or keeps its previous value when none matches. -/
theorem removeFile_step_spec (ext : Externals) (ctx : Ctx) (tab : FileTabData)
    (s' : PState) (c' : Ctx)
    (h : playgroundStep ext .playing ctx (.removeFile tab) = .ok (s', c')) :
    s' = .playing ∧
      c'.inputList = removeAtIndex ctx.inputList tab.index ∧
      c'.selectedOpenApiFileName
        = (((removeAtIndex ctx.inputList tab.index).find?
            (fun t => isValidDocumentName t.name)).map (fun t => t.name)).getD
            ctx.selectedOpenApiFileName ∧
      c'.selectedTemplateName
        = (((removeAtIndex ctx.inputList tab.index).find?
            (fun t => isValidTemplateName t.name)).map (fun t => t.name)).getD
            ctx.selectedTemplateName ∧
      c'.selectedPrettierConfig
        = (((removeAtIndex ctx.inputList tab.index).find?
            (fun t => isValidPrettierConfig t.name)).map (fun t => t.name)).getD
            ctx.selectedPrettierConfig := by
  simp only [playgroundStep] at h
  split at h
  · exact absurd h (by simp)
  · rename_i c1 hra
    obtain ⟨hl1, hs1, ht1, hp1⟩ := removeFileAct_ok ctx tab c1 hra
    obtain ⟨hl4, hs4, ht4, hp4⟩ := tripleUpdate_remove c1 tab
    split at h
    · exact absurd h (by simp)
    · rename_i c5 huo
      obtain ⟨hl5, hs5, ht5, hp5⟩ := updateOutput_ok_preserves _ _ _ _ huo
      simp only [Except.ok.injEq, Prod.mk.injEq] at h
      obtain ⟨hstate, hctx⟩ := h
      refine ⟨hstate.symm, ?_, ?_, ?_, ?_⟩
      · rw [← hctx, hl5, hl4, hl1]
      · rw [← hctx, hs5, hs4, hl1, hs1]
      · rw [← hctx, ht5, ht4, hl1, ht1]
      · rw [← hctx, hp5, hp4, hl1, hp1]

/-- C2: refuted as stated.  Removing the only template tab (the seeded
`template.hbs`, at index 1) leaves `selectedTemplateName` still equal to
`"template.hbs"` — the code retains the prior value when no remaining tab
matches, it never clears the pointer to empty. -/
theorem c2_counterexample :
    ((playgroundStep extA .playing (initialContext extA)
        (.removeFile { name := "template.hbs", content := "t", index := 1 })).toOption.map
      (fun r => (r.2.selectedTemplateName,
                 r.2.inputList.any (fun t => isValidTemplateName t.name))))
      = some ("template.hbs", false) ∧ ("template.hbs" : String) ≠ "" := by
  decide

/-- C2 (amended): after a successful `Remove file` step, the removed tab is
taken out of the input list and each of the three role pointers is
reassigned to the name of the first remaining tab matching that role's
predicate; when no remaining tab matches, the pointer retains its prior
value (possibly the removed tab's name) instead of being cleared to
empty. -/
theorem c2_remove_file_role_reassignment (ext : Externals) (ctx : Ctx) (tab : FileTabData)
    (s' : PState) (c' : Ctx)
    (h : playgroundStep ext .playing ctx (.removeFile tab) = .ok (s', c')) :
    c'.inputList = removeAtIndex ctx.inputList tab.index ∧
      c'.selectedOpenApiFileName
        = ((c'.inputList.find? (fun t => isValidDocumentName t.name)).map
            (fun t => t.name)).getD ctx.selectedOpenApiFileName ∧
      c'.selectedTemplateName
        = ((c'.inputList.find? (fun t => isValidTemplateName t.name)).map
            (fun t => t.name)).getD ctx.selectedTemplateName ∧
      c'.selectedPrettierConfig
        = ((c'.inputList.find? (fun t => isValidPrettierConfig t.name)).map
            (fun t => t.name)).getD ctx.selectedPrettierConfig := by
  obtain ⟨-, hl, hs, ht, hp⟩ := removeFile_step_spec ext ctx tab s' c' h
  exact ⟨hl, by rw [hs, hl], by rw [ht, hl], by rw [hp, hl]⟩

/-- The result of removing the seeded prettier tab, for the C2 witness. -/
def c2res : PState × Ctx :=
  (playgroundStep extA .playing (initialContext extA)
    (.removeFile { name := ".prettierrc.json", content := "c", index := 2 })).toOption.getD
    (.loading, initialContext extA)

/-- C2 witness: the amended reassignment rule instantiated on removing the
seeded prettier-config tab. -/
theorem c2_witness :
    c2res.2.selectedPrettierConfig
      = ((c2res.2.inputList.find? (fun t => isValidPrettierConfig t.name)).map
          (fun t => t.name)).getD (initialContext extA).selectedPrettierConfig :=
  (c2_remove_file_role_reassignment extA (initialContext extA)
      { name := ".prettierrc.json", content := "c", index := 2 } c2res.1 c2res.2
      (by decide)).2.2.2

/-- Context after the input surface attaches (C7 run). -/
def c7ctx1 : Ctx := { initialContext extA with inputEditor := some 1 }

/-- Context after both surfaces attach (C7 run). -/
def c7ctx2 : Ctx := { initialContext extA with inputEditor := some 1, outputEditor := some 2 }

/-- Context after `Select preset template` with identifier `preset-x`:
the template pointer holds the preset identifier, which is no tab name. -/
def c7ctx3 : Ctx :=
  { initialContext extA with inputEditor := some 1, outputEditor := some 2,
                             selectedTemplateName := "preset-x" }

/-- C7: refuted as stated.  A reachable Playing state in which
`selectedTemplateName` is the preset identifier `"preset-x"`, a non-empty
string that names no tab of the input list: `selectPresetTemplate` assigns
the event's preset `value` to the pointer without requiring any tab of
that name. -/
theorem c7_counterexample :
    Reachable extA .playing c7ctx3 ∧ c7ctx3.selectedTemplateName ≠ "" ∧
      (c7ctx3.inputList.all (fun t => t.name != c7ctx3.selectedTemplateName)) = true :=
  ⟨Reachable.next
      (Reachable.next
        (Reachable.next Reachable.init
          (by decide :
            playgroundStep extA .loading (initialContext extA) (.editorLoaded 1 "input" none)
              = .ok (.loading, c7ctx1)))
        (by decide :
          playgroundStep extA .loading c7ctx1 (.editorLoaded 2 "output" none)
            = .ok (.playing, c7ctx2)))
      (by decide :
        playgroundStep extA .playing c7ctx2
            (.selectPresetTemplate { value := "preset-x", template := "tplkey" })
          = .ok (.playing, c7ctx3)),
   by decide, by decide⟩

/-- C7 (amended): the pointer invariant does not hold in general — after
`Select preset template` the template pointer holds a preset identifier,
and after `Remove file` a pointer whose role has no remaining match keeps
a stale name.  What does hold after every successful `Remove file` step:
each role pointer either names a tab present in the new input list that
satisfies the role's predicate, or no tab of the new list satisfies that
predicate at all. -/
theorem c7_role_pointer_after_remove (ext : Externals) (ctx : Ctx) (tab : FileTabData)
    (s' : PState) (c' : Ctx)
    (h : playgroundStep ext .playing ctx (.removeFile tab) = .ok (s', c')) :
    ((∃ t ∈ c'.inputList, t.name = c'.selectedOpenApiFileName ∧
        isValidDocumentName t.name = true) ∨
      ∀ t ∈ c'.inputList, isValidDocumentName t.name = false) ∧
    ((∃ t ∈ c'.inputList, t.name = c'.selectedTemplateName ∧
        isValidTemplateName t.name = true) ∨
      ∀ t ∈ c'.inputList, isValidTemplateName t.name = false) ∧
    ((∃ t ∈ c'.inputList, t.name = c'.selectedPrettierConfig ∧
        isValidPrettierConfig t.name = true) ∨
      ∀ t ∈ c'.inputList, isValidPrettierConfig t.name = false) := by
  obtain ⟨-, hl, hs, ht, hp⟩ := removeFile_step_spec ext ctx tab s' c' h
  rw [← hl] at hs ht hp
  refine ⟨?_, ?_, ?_⟩
  · cases hf : c'.inputList.find? (fun t => isValidDocumentName t.name) with
    | none => exact Or.inr (fun t ht' => by
        have := List.find?_eq_none.mp hf t ht'
        simpa using this)
    | some t =>
      refine Or.inl ⟨t, List.mem_of_find?_eq_some hf, ?_, by simpa using List.find?_some hf⟩
      rw [hs, hf]; rfl
  · cases hf : c'.inputList.find? (fun t => isValidTemplateName t.name) with
    | none => exact Or.inr (fun t ht' => by
        have := List.find?_eq_none.mp hf t ht'
        simpa using this)
    | some t =>
      refine Or.inl ⟨t, List.mem_of_find?_eq_some hf, ?_, by simpa using List.find?_some hf⟩
      rw [ht, hf]; rfl
  · cases hf : c'.inputList.find? (fun t => isValidPrettierConfig t.name) with
    | none => exact Or.inr (fun t ht' => by
        have := List.find?_eq_none.mp hf t ht'
        simpa using this)
    | some t =>
      refine Or.inl ⟨t, List.mem_of_find?_eq_some hf, ?_, by simpa using List.find?_some hf⟩
      rw [hp, hf]; rfl

/-- The result of removing the seeded document tab, for the C7 witness. -/
def c7wres : PState × Ctx :=
  (playgroundStep extA .playing (initialContext extA)
    (.removeFile { name := "api.doc.yaml", content := "", index := 0 })).toOption.getD
    (.loading, initialContext extA)

/-- C7 witness: the amended property instantiated on removing the seeded
document tab (no document-named tab remains, so the right disjunct
holds). -/
theorem c7_witness :
    (∃ t ∈ c7wres.2.inputList, t.name = c7wres.2.selectedOpenApiFileName ∧
        isValidDocumentName t.name = true) ∨
      ∀ t ∈ c7wres.2.inputList, isValidDocumentName t.name = false :=
  (c7_role_pointer_after_remove extA (initialContext extA)
      { name := "api.doc.yaml", content := "", index := 0 } c7wres.1 c7wres.2 (by decide)).1

/-- `list[i].index = n + i` for every position, as an executable check. -/
def indexInvariantFrom (n : Nat) : List FileTabData → Bool
  | [] => true
  | t :: ts => (t.index == (n : Int)) && indexInvariantFrom (n + 1) ts

/-- The reindex invariant of the specification: every tab's `index` field
equals its position in the list. -/
def indexInvariantB (l : List FileTabData) : Bool := indexInvariantFrom 0 l

/-- Under `indexInvariantFrom n`, the element at position `i` carries index
`n + i`. -/
theorem invariantFrom_get? (l : List FileTabData) (n i : Nat) (x : FileTabData)
    (hinv : indexInvariantFrom n l = true) (hg : l.get? i = some x) :
    x.index = ((n + i : Nat) : Int) := by
  induction l generalizing n i with
  | nil => cases hg
  | cons a as ih =>
    simp only [indexInvariantFrom, Bool.and_eq_true, beq_iff_eq] at hinv
    cases i with
    | zero =>
      simp only [List.get?] at hg
      cases hg
      simpa using hinv.1
    | succ i' =>
      simp only [List.get?] at hg
      have := ih (n + 1) i' hinv.2 hg
      rw [this]
      push_cast
      ring

/-- Removing the element at position `n` shifts the element previously at
`n + 1` into position `n`. -/
theorem rm_get? {α : Type} (l : List α) (n : Nat) :
    (l.take n ++ l.drop (n + 1)).get? n = l.get? (n + 1) := by
  induction l generalizing n with
  | nil => simp
  | cons a as ih =>
    cases n with
    | zero => simp
    | succ m =>
      simp only [List.take, List.drop, List.cons_append, List.get?]
      exact ih m

/-- C3: refuted as stated.  Removing the seeded document tab (position 0)
leaves the remaining tabs carrying their old index fields `[1, 2]` at
positions `[0, 1]`: `removeAtIndex` does not decrement the following
tabs' `index` fields. -/
theorem c3_counterexample :
    ((playgroundStep extA .playing (initialContext extA)
        (.removeFile { name := "api.doc.yaml", content := "", index := 0 })).toOption.map
      (fun r => (indexInvariantB r.2.inputList, r.2.inputList.map (fun t => t.index))))
      = some (false, [1, 2]) := by
  decide

/-- C3 (amended): removal does not renumber.  A successful `Remove file`
step removes the element at the event tab's index and leaves every
remaining tab's `index` field unchanged, so whenever the invariant held
before and the removed position is not the last one, the resulting list
violates `list[i].index = i` (at the removal position). -/
theorem c3_remove_breaks_reindex (ext : Externals) (ctx : Ctx) (tab : FileTabData)
    (s' : PState) (c' : Ctx)
    (h : playgroundStep ext .playing ctx (.removeFile tab) = .ok (s', c'))
    (hinv : indexInvariantB ctx.inputList = true)
    (hk0 : 0 ≤ tab.index) (hk1 : tab.index + 1 < (ctx.inputList.length : Int)) :
    c'.inputList = removeAtIndex ctx.inputList tab.index ∧
      indexInvariantB c'.inputList = false := by
  obtain ⟨-, hl, -, -, -⟩ := removeFile_step_spec ext ctx tab s' c' h
  have hkeq : ((tab.index.toNat : Int)) = tab.index := Int.toNat_of_nonneg hk0
  have hklen : tab.index.toNat + 1 < ctx.inputList.length := by
    rw [← hkeq] at hk1
    exact_mod_cast hk1
  have hrm : removeAtIndex ctx.inputList tab.index
      = ctx.inputList.take tab.index.toNat ++ ctx.inputList.drop (tab.index.toNat + 1) := by
    simp [removeAtIndex, not_lt.mpr hk0]
  refine ⟨hl, ?_⟩
  by_contra hfalse
  have htrue : indexInvariantB c'.inputList = true := by
    cases hcase : indexInvariantB c'.inputList
    · exact absurd hcase hfalse
    · rfl
  cases hg : ctx.inputList.get? (tab.index.toNat + 1) with
  | none =>
    have := List.get?_eq_none.mp hg
    omega
  | some y =>
    have hy : y.index = ((0 + (tab.index.toNat + 1) : Nat) : Int) :=
      invariantFrom_get? _ 0 _ y hinv hg
    have hgc : c'.inputList.get? tab.index.toNat = some y := by
      rw [hl, hrm, rm_get?]
      exact hg
    have hy2 : y.index = ((0 + tab.index.toNat : Nat) : Int) :=
      invariantFrom_get? _ 0 _ y htrue hgc
    rw [hy] at hy2
    simp at hy2

/-- The result of removing the seeded document tab, for the C3 witness. -/
def c3res : PState × Ctx :=
  (playgroundStep extA .playing (initialContext extA)
    (.removeFile { name := "api.doc.yaml", content := "", index := 0 })).toOption.getD
    (.loading, initialContext extA)

/-- C3 witness: the amended statement instantiated on removing the seeded
document tab from the freshly seeded (invariant-satisfying) list. -/
theorem c3_witness :
    c3res.2.inputList
        = removeAtIndex (initialContext extA).inputList
            ({ name := "api.doc.yaml", content := "", index := 0 } : FileTabData).index ∧
      indexInvariantB c3res.2.inputList = false :=
  c3_remove_breaks_reindex extA (initialContext extA)
    { name := "api.doc.yaml", content := "", index := 0 } c3res.1 c3res.2
    (by decide) (by decide) (by decide) (by decide)

/-- The fields of the context that `updateOutput` reads: the input list,
the three role pointers, the committed options, the preset catalog, and
the prior output list (returned unchanged on the no-change paths). -/
def regenInputs (ctx : Ctx) :
    List FileTabData × String × String × String × OptionsFormValues ×
      List (String × String) × List FileTabData :=
  (ctx.inputList, ctx.selectedOpenApiFileName, ctx.selectedTemplateName,
   ctx.selectedPrettierConfig, ctx.options, ctx.presetTemplates, ctx.outputList)

/-- C9: confirmed.  The regeneration pipeline is deterministic — it is a
pure function of the document/template/formatter contents reachable from
the input list and pointers, the committed options, the preset catalog and
the prior output: any two contexts agreeing on those fields produce
identical output artifact lists (or the identical error) under the same
fixed collaborators.  Repeated invocation from the same context is the
special case `ctx1 = ctx2`. -/
theorem c9_determinism (ext : Externals) (ev : PEvent) (ctx1 ctx2 : Ctx)
    (h : regenInputs ctx1 = regenInputs ctx2) :
    (updateOutput ext ctx1 ev).map (fun c => c.outputList)
      = (updateOutput ext ctx2 ev).map (fun c => c.outputList) := by
  simp only [regenInputs, Prod.mk.injEq] at h
  obtain ⟨h1, h2, h3, h4, h5, h6, h7⟩ := h
  have hd : docInput ctx1 ev = docInput ctx2 ev := by
    simp only [docInput, h1, h2]
  have ht : resolveTemplateString ext ctx1 = resolveTemplateString ext ctx2 := by
    simp only [resolveTemplateString, h1, h3, h6]
  have hp : resolvePrettierConfig ext ctx1 = resolvePrettierConfig ext ctx2 := by
    simp only [resolvePrettierConfig, h1, h4]
  simp only [updateOutput, hd, ht, hp, h5, h6]
  by_cases hin : docInput ctx2 ev = ""
  · simp [hin, h7, Except.map]
  · simp only [if_neg hin]
    cases hpd : parseDoc ext (docInput ctx2 ev) with
    | error e => simp [Except.map]
    | ok o =>
      cases o with
      | none => simp [h7, Except.map]
      | some doc =>
        by_cases htpl : resolveTemplateString ext ctx2 = ""
        · simp [htpl, h7, Except.map]
        · simp only [if_neg htpl]
          by_cases hgs : jsIncludes ctx2.options.groupStrategy "file" = true
          · simp only [hgs, if_true]
            cases hidx : jsRecordGet ctx2.presetTemplates "template-grouped-index" with
            | none => simp [Except.map]
            | some idxSrc =>
              cases hcom : jsRecordGet ctx2.presetTemplates "template-grouped-common" with
              | none => simp [Except.map]
              | some comSrc =>
                cases houtl : (groupedOutputByGroupName ext (resolveTemplateString ext ctx2)
                    (ext.getZodClientTemplateContext doc ctx2.options) ctx2.options
                    (resolvePrettierConfig ext ctx2) idxSrc comSrc).enum.map
                    (fun p => ({ name := p.2.1 ++ ".ts", content := p.2.2,
                                 index := (p.1 : Int) } : FileTabData)) with
                | nil => simp [houtl, Except.map]
                | cons first rest => simp [houtl, Except.map]
          · simp [hgs, Except.map]

/-- A context agreeing with the initial one on every regeneration input
but differing elsewhere (options-form remount key). -/
def c9ctxB : Ctx := { initialContext extA with optionsFormKey := 5 }

/-- C9 witness: determinism instantiated on two contexts that agree on the
regeneration inputs. -/
theorem c9_witness :
    regenInputs (initialContext extA) = regenInputs c9ctxB ∧
      (updateOutput extA (initialContext extA) .resize).map (fun c => c.outputList)
        = (updateOutput extA c9ctxB .resize).map (fun c => c.outputList) :=
  ⟨rfl, c9_determinism extA .resize (initialContext extA) c9ctxB rfl⟩

/-- Changing the selected document tab's content does not affect `find?`
lookups for a differently named tab. -/
theorem find?_setDocContent (ctx : Ctx) (c' : String) (nm : String)
    (hne : nm ≠ ctx.selectedOpenApiFileName) :
    (setDocContent ctx c').inputList.find? (fun t => t.name == nm)
      = ctx.inputList.find? (fun t => t.name == nm) := by
  simp only [setDocContent]
  rw [List.find?_map]
  have hcomp : ((fun t : FileTabData => t.name == nm) ∘
      (fun t => if t.name == ctx.selectedOpenApiFileName then { t with content := c' } else t))
      = (fun t : FileTabData => t.name == nm) := by
    funext t
    by_cases hd : t.name == ctx.selectedOpenApiFileName <;> simp [Function.comp, hd]
  rw [hcomp]
  cases hf : ctx.inputList.find? (fun t => t.name == nm) with
  | none => rfl
  | some t =>
    have hpt : t.name = nm := by simpa using List.find?_some hf
    simp [Option.map, hpt, hne]

/-- C10: confirmed.  On a `Submit file modal` event, `updateOutput` uses
the submitted tab's content as the document input: the selected document
tab's content is irrelevant (any replacement of it yields the identical
output artifact list, provided the template and prettier pointers do not
alias the document pointer), and an empty submitted content is a no-change
even if the selected document is non-empty. -/
theorem c10_submit_overrides_document (ext : Externals) (ctx : Ctx) (tab : FileTabData)
    (c' : String)
    (h1 : ctx.selectedTemplateName ≠ ctx.selectedOpenApiFileName)
    (h2 : ctx.selectedPrettierConfig ≠ ctx.selectedOpenApiFileName) :
    ((updateOutput ext (setDocContent ctx c') (.submitFileModal tab)).map (fun c => c.outputList)
      = (updateOutput ext ctx (.submitFileModal tab)).map (fun c => c.outputList)) ∧
    (tab.content = "" → updateOutput ext ctx (.submitFileModal tab) = .ok ctx) := by
  have hd : ∀ cc : Ctx, docInput cc (.submitFileModal tab) = tab.content := fun cc => rfl
  constructor
  · have ht : resolveTemplateString ext (setDocContent ctx c') = resolveTemplateString ext ctx := by
      simp only [resolveTemplateString, setDocContent]
      rw [show ({ ctx with inputList := ctx.inputList.map (fun t =>
          if t.name == ctx.selectedOpenApiFileName then { t with content := c' } else t) } : Ctx).inputList.find?
            (fun item => item.name == ctx.selectedTemplateName)
          = ctx.inputList.find? (fun item => item.name == ctx.selectedTemplateName) from
        find?_setDocContent ctx c' ctx.selectedTemplateName h1]
    have hp : resolvePrettierConfig ext (setDocContent ctx c') = resolvePrettierConfig ext ctx := by
      simp only [resolvePrettierConfig, setDocContent]
      rw [show ({ ctx with inputList := ctx.inputList.map (fun t =>
          if t.name == ctx.selectedOpenApiFileName then { t with content := c' } else t) } : Ctx).inputList.find?
            (fun t => t.name == ctx.selectedPrettierConfig)
          = ctx.inputList.find? (fun t => t.name == ctx.selectedPrettierConfig) from
        find?_setDocContent ctx c' ctx.selectedPrettierConfig h2]
    simp only [updateOutput, hd, ht, hp]
    by_cases hin : tab.content = ""
    · simp [hin, setDocContent, Except.map]
    · simp only [if_neg hin]
      cases hpd : parseDoc ext tab.content with
      | error e => simp [Except.map]
      | ok o =>
        cases o with
        | none => simp [setDocContent, Except.map]
        | some doc =>
          have hopt : (setDocContent ctx c').options = ctx.options := rfl
          have hpres : (setDocContent ctx c').presetTemplates = ctx.presetTemplates := rfl
          simp only [hopt, hpres]
          by_cases htpl : resolveTemplateString ext ctx = ""
          · simp [htpl, setDocContent, Except.map]
          · simp only [if_neg htpl]
            by_cases hgs : jsIncludes ctx.options.groupStrategy "file" = true
            · simp only [hgs, if_true]
              cases hidx : jsRecordGet ctx.presetTemplates "template-grouped-index" with
              | none => simp [Except.map]
              | some idxSrc =>
                cases hcom : jsRecordGet ctx.presetTemplates "template-grouped-common" with
                | none => simp [Except.map]
                | some comSrc =>
                  cases houtl : (groupedOutputByGroupName ext (resolveTemplateString ext ctx)
                      (ext.getZodClientTemplateContext doc ctx.options) ctx.options
                      (resolvePrettierConfig ext ctx) idxSrc comSrc).enum.map
                      (fun p => ({ name := p.2.1 ++ ".ts", content := p.2.2,
                                   index := (p.1 : Int) } : FileTabData)) with
                  | nil => simp [houtl, Except.map]
                  | cons first rest => simp [houtl, Except.map]
            · simp [hgs, Except.map]
  · intro hc
    simp only [updateOutput, hd, hc, if_pos rfl]
    rfl

/-- C10 witness: the override property instantiated at the seeded context
(whose template and prettier pointers differ from the document pointer)
with an empty submitted tab. -/
theorem c10_witness :
    (initialContext extA).selectedTemplateName ≠ (initialContext extA).selectedOpenApiFileName ∧
      ((updateOutput extA (setDocContent (initialContext extA) "zzz")
          (.submitFileModal { name := "f.hbs", content := "", index := 3 })).map
          (fun c => c.outputList)
        = (updateOutput extA (initialContext extA)
            (.submitFileModal { name := "f.hbs", content := "", index := 3 })).map
            (fun c => c.outputList)) :=
  ⟨by decide,
   (c10_submit_overrides_document extA (initialContext extA)
      { name := "f.hbs", content := "", index := 3 } "zzz" (by decide) (by decide)).1⟩

/-- Inserting a fresh key into a JS record appends. -/
theorem jsInsert_fresh {α : Type} (m : List (String × α)) (k : String) (v : α)
    (h : ∀ p ∈ m, p.1 ≠ k) : jsInsert m k v = m ++ [(k, v)] := by
  have hany : m.any (fun p => p.1 == k) = false := by
    rw [List.any_eq_false]
    intro p hp
    simpa using h p hp
  simp [jsInsert, hany]

/-- Folding fresh-key insertions over a record appends the entries in
iteration order. -/
theorem foldl_jsInsert_fresh (f : String × String → String) (gs : List (String × String))
    (acc : List (String × String)) (hnd : (gs.map Prod.fst).Nodup)
    (hdisj : ∀ g ∈ gs, ∀ p ∈ acc, p.1 ≠ g.1) :
    gs.foldl (fun a g => jsInsert a g.1 (f g)) acc
      = acc ++ gs.map (fun g => (g.1, f g)) := by
  induction gs generalizing acc with
  | nil => simp
  | cons g gs ih =>
    rw [List.foldl_cons, jsInsert_fresh acc g.1 (f g)
      (fun p hp => hdisj g (List.mem_cons_self g gs) p hp)]
    rw [ih (acc ++ [(g.1, f g)])]
    · simp
    · simpa using (List.nodup_cons.mp (by simpa using hnd)).2
    · intro g' hg' p hp
      rcases List.mem_append.mp hp with hpa | hpe
      · exact hdisj g' (List.mem_cons_of_mem g hg') p hpa
      · have hpg : p = (g.1, f g) := by simpa using hpe
        rw [hpg]
        intro hcontra
        have hhead : g.1 ∉ gs.map Prod.fst := (List.nodup_cons.mp (by simpa using hnd)).1
        exact hhead (hcontra ▸ List.mem_map_of_mem Prod.fst hg')

/-- With pairwise distinct group names avoiding `index` and `common`, the
grouped output record is literally `index`, the conditional `common`, then
one entry per group in iteration order. -/
theorem groupedOutputByGroupName_eq (ext : Externals) (templateString : String)
    (tc : TemplateContext) (options : OptionsFormValues) (pc : Option PrettierOptions)
    (idxSrc comSrc : String)
    (hnd : (tc.endpointsGroups.map Prod.fst).Nodup)
    (hni : "index" ∉ tc.endpointsGroups.map Prod.fst)
    (hnc : "common" ∉ tc.endpointsGroups.map Prod.fst) :
    groupedOutputByGroupName ext templateString tc options pc idxSrc comSrc
      = (("index",
            ext.maybePretty
              (ext.render idxSrc
                (.index (jsFromEntries
                  (tc.endpointsGroups.map (fun g => (capitalize g.1 ++ "Api", g.1)))))) pc)
          :: (if (tc.commonSchemaNames.getD []).length > 0
              then [("common",
                ext.maybePretty
                  (ext.render comSrc
                    (.common (pick tc.schemas (tc.commonSchemaNames.getD []))
                      (pick tc.types (tc.commonSchemaNames.getD [])))) pc)]
              else []))
        ++ tc.endpointsGroups.map
            (fun g => (g.1, groupRender ext templateString tc options pc g)) := by
  simp only [groupedOutputByGroupName]
  have hacc0 : ∀ v : String, jsInsert ([] : List (String × String)) "index" v = [("index", v)] := by
    intro v; simp [jsInsert]
  by_cases hcm : (tc.commonSchemaNames.getD []).length > 0
  · rw [if_pos hcm, if_pos hcm, hacc0]
    have hacc1 : ∀ v w : String,
        jsInsert [("index", v)] "common" w = [("index", v), ("common", w)] := by
      intro v w; simp [jsInsert]
    rw [hacc1]
    have hdisj2 : ∀ (v w : String), ∀ g ∈ tc.endpointsGroups,
        ∀ p ∈ ([("index", v), ("common", w)] : List (String × String)), p.1 ≠ g.1 := by
      intro v w g hg p hp
      have hgk : g.1 ∈ tc.endpointsGroups.map Prod.fst := List.mem_map_of_mem Prod.fst hg
      rcases List.mem_cons.mp hp with h1 | h2
      · rw [h1]
        intro hcontra
        exact hni (by rw [← hcontra] at hgk; simpa using hgk)
      · have h3 : p = ("common", w) := by simpa using h2
        rw [h3]
        intro hcontra
        exact hnc (by rw [← hcontra] at hgk; simpa using hgk)
    rw [foldl_jsInsert_fresh _ _ _ hnd (hdisj2 _ _)]
  · rw [if_neg hcm, if_neg hcm, hacc0]
    have hdisj1 : ∀ (v : String), ∀ g ∈ tc.endpointsGroups,
        ∀ p ∈ ([("index", v)] : List (String × String)), p.1 ≠ g.1 := by
      intro v g hg p hp
      have hgk : g.1 ∈ tc.endpointsGroups.map Prod.fst := List.mem_map_of_mem Prod.fst hg
      have hp1 : p = ("index", v) := by simpa using hp
      rw [hp1]
      intro hcontra
      exact hni (by rw [← hcontra] at hgk; simpa using hgk)
    rw [foldl_jsInsert_fresh _ _ _ hnd (hdisj1 _)]

/-- The names of the artifacts built from a record are the keys suffixed
with `.ts`, in record order. -/
theorem enumFrom_map_names (l : List (String × String)) (n : Nat) :
    ((List.enumFrom n l).map (fun p =>
        ({ name := p.2.1 ++ ".ts", content := p.2.2, index := (p.1 : Int) } : FileTabData))).map
        (fun t => t.name)
      = l.map (fun q => q.1 ++ ".ts") := by
  induction l generalizing n with
  | nil => rfl
  | cons a as ih => simp [List.enumFrom, ih]

/-- The indices of the artifacts built from a record are consecutive
starting at the enumeration origin. -/
theorem enumFrom_map_indices (l : List (String × String)) (n : Nat) :
    ((List.enumFrom n l).map (fun p =>
        ({ name := p.2.1 ++ ".ts", content := p.2.2, index := (p.1 : Int) } : FileTabData))).map
        (fun t => t.index)
      = (List.range' n l.length).map (fun j => (j : Int)) := by
  induction l generalizing n with
  | nil => rfl
  | cons a as ih => simp [List.enumFrom, List.range'_succ, ih]

/-- C4 (amended): when the committed options use a group-by-file strategy,
a regeneration whose document parses, whose template resolves non-empty,
and whose catalog holds the two grouped preset templates produces the
output list `[index, common?, group1, group2, …]` with sequential indices
from 0 and the active output reset to the `index` artifact — provided no
endpoint group is itself named `index` or `common` (group names are
pairwise distinct, being JS object keys). -/
theorem c4_grouped_output_order (ext : Externals) (ctx : Ctx) (ev : PEvent) (doc : String)
    (idxSrc comSrc : String)
    (hin : docInput ctx ev ≠ "")
    (hparse : parseDoc ext (docInput ctx ev) = .ok (some doc))
    (htpl : resolveTemplateString ext ctx ≠ "")
    (hgs : jsIncludes ctx.options.groupStrategy "file" = true)
    (hidx : jsRecordGet ctx.presetTemplates "template-grouped-index" = some idxSrc)
    (hcom : jsRecordGet ctx.presetTemplates "template-grouped-common" = some comSrc)
    (hnd : ((ext.getZodClientTemplateContext doc ctx.options).endpointsGroups.map Prod.fst).Nodup)
    (hni : "index" ∉ (ext.getZodClientTemplateContext doc ctx.options).endpointsGroups.map Prod.fst)
    (hnc : "common" ∉ (ext.getZodClientTemplateContext doc ctx.options).endpointsGroups.map Prod.fst) :
    ∃ c', updateOutput ext ctx ev = .ok c' ∧
      c'.outputList.map (fun t => t.name)
        = "index.ts" ::
            ((if ((ext.getZodClientTemplateContext doc ctx.options).commonSchemaNames.getD
                []).length > 0
              then ["common.ts"] else [])
              ++ (ext.getZodClientTemplateContext doc ctx.options).endpointsGroups.map
                  (fun g => g.1 ++ ".ts")) ∧
      c'.outputList.map (fun t => t.index)
        = (List.range c'.outputList.length).map (fun j => (j : Int)) ∧
      c'.activeOutputIndex = 0 ∧ c'.activeOutputTab = "index.ts" := by
  have hrec := groupedOutputByGroupName_eq ext (resolveTemplateString ext ctx)
    (ext.getZodClientTemplateContext doc ctx.options) ctx.options
    (resolvePrettierConfig ext ctx) idxSrc comSrc hnd hni hnc
  simp only [updateOutput, hparse]
  rw [if_neg hin, if_neg htpl, if_pos hgs]
  simp only [hidx, hcom]
  rw [hrec]
  simp only [List.cons_append, List.enum_cons, List.map_cons]
  refine ⟨_, rfl, ?_, ?_, rfl, ?_⟩
  · dsimp only
    rw [List.map_cons, enumFrom_map_names]
    by_cases hcm : ((ext.getZodClientTemplateContext doc ctx.options).commonSchemaNames.getD
        []).length > 0
    · simp [hcm, List.map_map, Function.comp]
    · simp [hcm, List.map_map, Function.comp]
  · dsimp only
    rw [List.map_cons, enumFrom_map_indices]
    simp [List.enumFrom_length, List.range_eq_range', List.range'_succ]
  · show ("index" ++ ".ts" : String) = "index.ts"
    decide

/-- Collaborators whose semantic-model builder discovers a single endpoint
group literally named `index`, with no common schemas. -/
def extB : Externals :=
  { defaultOptionValues := { groupStrategy := "tag-file", apiClientName := "api" }
    presetsDefaultInput := "\x7bdoc"
    presetsDefaultTemplate := "T"
    presetsDefaultPrettierConfig := "cfg"
    presetTemplateList := []
    jsonParseDoc := fun _ => some "doc"
    yamlParseDoc := fun _ => .ok none
    jsonParsePrettier := fun _ => none
    getZodClientTemplateContext := fun _ _ => { endpointsGroups := [("index", "g")] }
    render := fun _ _ => "R"
    maybePretty := fun s _ => s }

/-- The seeded context under `extB` with the grouped preset templates
loaded into the catalog. -/
def c4ctx : Ctx :=
  { initialContext extB with
      presetTemplates := [("template-grouped-index", "I"), ("template-grouped-common", "C")] }

/-- C4: refuted as stated.  With a group named `index`, the per-group loop
overwrites the `index` record entry in place, so the regeneration yields a
single artifact `["index.ts"]` where the claimed ordering (an index
artifact followed by one artifact per group) demands
`["index.ts", "index.ts"]`. -/
theorem c4_counterexample :
    ((playgroundStep extB .playing c4ctx (.updateInput "\x7bdoc")).toOption.map
        (fun r => r.2.outputList.map (fun t => t.name))) = some ["index.ts"] ∧
      ((extB.getZodClientTemplateContext "doc" c4ctx.options).endpointsGroups.map
          (fun g => g.1 ++ ".ts")) = ["index.ts"] ∧
      ¬((some ["index.ts"] : Option (List String))
          = some ("index.ts" ::
              ((if ((extB.getZodClientTemplateContext "doc"
                    c4ctx.options).commonSchemaNames.getD []).length > 0
                then ["common.ts"] else [])
                ++ (extB.getZodClientTemplateContext "doc" c4ctx.options).endpointsGroups.map
                    (fun g => g.1 ++ ".ts")))) := by
  decide

/-- Collaborators whose semantic-model builder discovers the groups `pet`
and `store`, with no common schemas. -/
def extC : Externals :=
  { defaultOptionValues := { groupStrategy := "tag-file", apiClientName := "api" }
    presetsDefaultInput := "\x7bdoc"
    presetsDefaultTemplate := "T"
    presetsDefaultPrettierConfig := "cfg"
    presetTemplateList := []
    jsonParseDoc := fun _ => some "doc"
    yamlParseDoc := fun _ => .ok none
    jsonParsePrettier := fun _ => none
    getZodClientTemplateContext := fun _ _ =>
      { endpointsGroups := [("pet", "g1"), ("store", "g2")] }
    render := fun _ _ => "R"
    maybePretty := fun s _ => s }

/-- The seeded context under `extC` with the grouped preset templates
loaded into the catalog. -/
def c4wctx : Ctx :=
  { initialContext extC with
      presetTemplates := [("template-grouped-index", "I"), ("template-grouped-common", "C")] }

/-- C4 witness: the amended ordering instantiated on groups `pet` and
`store` with no common schemas. -/
theorem c4_witness :
    ∃ c', updateOutput extC c4wctx (.updateInput "x") = .ok c' ∧
      c'.outputList.map (fun t => t.name)
        = "index.ts" ::
            ((if ((extC.getZodClientTemplateContext "doc"
                  c4wctx.options).commonSchemaNames.getD []).length > 0
              then ["common.ts"] else [])
              ++ (extC.getZodClientTemplateContext "doc" c4wctx.options).endpointsGroups.map
                  (fun g => g.1 ++ ".ts")) ∧
      c'.outputList.map (fun t => t.index)
        = (List.range c'.outputList.length).map (fun j => (j : Int)) ∧
      c'.activeOutputIndex = 0 ∧ c'.activeOutputTab = "index.ts" :=
  c4_grouped_output_order extC c4wctx (.updateInput "x") "doc" "I" "C"
    (by decide) (by decide) (by decide) (by decide) (by decide) (by decide)
    (by decide) (by decide) (by decide)
